import Mathlib

/-!
Shallow embedding of the udp-over-tcp core (socks.go and uot.go).

Bytes are modelled as natural numbers (below 256 in any real byte
stream); byte streams and buffers are lists consumed from the front.
An `io.Reader` source is a list; reading returns the bytes obtained
together with the remaining source.
-/

namespace UoT

/-- The Go error values the code can produce or propagate: `io.EOF`,
`io.ErrUnexpectedEOF`, `io.ErrShortBuffer`, and the three `errors.New`
values appearing in the source ("error socks address",
"not a socks address", "over max packet size"). -/
inductive GoErr where
  | eof
  | unexpectedEOF
  | shortBuffer
  | invalidAtyp
  | notSocksAddr
  | tooLarge
deriving DecidableEq

/-- Outcome of a Go call that can return a value, return an error, or
panic at runtime (a panic never returns to the caller: here it models
the slice-bounds-out-of-range panic reachable in `ReadSocksAddr`). -/
inductive GoOutcome (α : Type) where
  | ok (val : α)
  | err (e : GoErr)
  | panicked
deriving DecidableEq

/-- Model of `io.ReadFull(r, buf[:k])` on a list source: returns the
bytes actually read, the remaining source, and the error (`io.EOF`
when nothing was available and `k > 0`, `io.ErrUnexpectedEOF` on a
partial read). -/
def readFull (src : List Nat) (k : Nat) : List Nat × List Nat × Option GoErr :=
  if k ≤ src.length then (src.take k, src.drop k, none)
  else if src.length = 0 then ([], [], some .eof)
  else (src, [], some .unexpectedEOF)

/-- socks address type constants (socks.go). -/
def atypIPv4 : Nat := 1

def atypDomainName : Nat := 3

def atypIPv6 : Nat := 4

/-- `type SocksAddr []byte` (socks.go). -/
abbrev SocksAddr := List Nat

/-- `maxAddrLen = 1 + 1 + 255` (socks.go): the size of the parse
buffer.  The full serialized form of the longest domain address is
1 + 1 + 255 + 2 = 259 bytes, so this buffer is 2 bytes short of it. -/
def maxAddrLen : Nat := 1 + 1 + 255

/-- Model of `ReadSocksAddr` (socks.go): reads a socks address from the
source, returning the address or error together with the remaining
source.  Mirrors the Go code exactly, in particular:
the returned slice is `buf[:n]` where `n` counts the bytes actually
read; the error of the final 2-byte port read is discarded; and the
port read slices `buf[n:n+2]` of the `maxAddrLen`-byte buffer, which
for a domain address puts `n = 2 + L` after the host read, so when
`n + 2 > maxAddrLen` (domain length L of 254 or 255) the slice bounds
are out of range and Go panics before any port byte is read.  The
IPv4/IPv6 branches slice at most `buf[17:19]` and never panic. -/
def ReadSocksAddr (src : List Nat) : GoOutcome SocksAddr × List Nat :=
  let t1 := readFull src 1
  match t1.2.2 with
  | some e => (.err e, t1.2.1)
  | none =>
    let b1 := t1.1
    if b1.headD 0 = atypDomainName then
      let t2 := readFull t1.2.1 1
      match t2.2.2 with
      | some e => (.err e, t2.2.1)
      | none =>
        let t3 := readFull t2.2.1 (t2.1.headD 0)
        match t3.2.2 with
        | some e => (.err e, t3.2.1)
        | none =>
          if maxAddrLen < 2 + t2.1.headD 0 + 2 then (.panicked, t3.2.1)
          else
            let t4 := readFull t3.2.1 2
            (.ok (b1 ++ t2.1 ++ t3.1 ++ t4.1), t4.2.1)
    else if b1.headD 0 = atypIPv4 then
      let t3 := readFull t1.2.1 4
      match t3.2.2 with
      | some e => (.err e, t3.2.1)
      | none =>
        let t4 := readFull t3.2.1 2
        (.ok (b1 ++ t3.1 ++ t4.1), t4.2.1)
    else if b1.headD 0 = atypIPv6 then
      let t3 := readFull t1.2.1 16
      match t3.2.2 with
      | some e => (.err e, t3.2.1)
      | none =>
        let t4 := readFull t3.2.1 2
        (.ok (b1 ++ t3.1 ++ t4.1), t4.2.1)
    else (.err .invalidAtyp, t1.2.1)

/-- `MaxPacketSize` (uot.go). -/
def MaxPacketSize : Nat := 65535

/-- Result of `defaultConn.Read`: the returned byte count, the caller's
buffer after the call, the returned error, and the remaining stream. -/
structure ConnReadResult where
  n : Nat
  buf : List Nat
  err : Option GoErr
  rest : List Nat
deriving DecidableEq

/-- Model of `defaultConn.Read` (uot.go).  The 2-byte length prefix is
read into `b[:2]`, then the payload into `b[:n]`; on byte values
`int(b[0])<<8 | int(b[1])` equals `256 * b[0] + b[1]`. -/
def defaultConn.Read (src : List Nat) (b : List Nat) : ConnReadResult :=
  if b.length < 2 then ⟨0, b, some .shortBuffer, src⟩
  else
    let t1 := readFull src 2
    match t1.2.2 with
    | some e => ⟨0, t1.1 ++ b.drop t1.1.length, some e, t1.2.1⟩
    | none =>
      let b1 := t1.1 ++ b.drop 2
      let n := 256 * b1.headD 0 + b1.getD 1 0
      if b.length < n then ⟨0, b1, some .shortBuffer, t1.2.1⟩
      else
        let t2 := readFull t1.2.1 n
        ⟨t2.1.length, t2.1 ++ b1.drop t2.1.length, t2.2.2, t2.2.1⟩

/-- Model of `defaultConn.Write` (uot.go): returns the bytes written to
the underlying stream (the 2-byte big-endian length prefix followed by
the payload), or an error, in which case nothing at all is written.
`byte(n >> 8)` is `n / 256 % 256` and `byte(n & 0xff)` is `n % 256`. -/
def defaultConn.Write (b : List Nat) : Except GoErr (List Nat) :=
  let n := b.length
  if MaxPacketSize - 2 < n then .error .tooLarge
  else .ok ([n / 256 % 256, n % 256] ++ b)

/-- Model of `defaultConn.Handshake` (uot.go).  `isClient` is the role
flag; `addr` is `some` socks address, or `none` when the argument is
not a `SocksAddr` (the failed type assertion).  Returns the resulting
outcome (a server-side parse panic propagates), the bytes written to
the stream, and the remaining input stream. -/
def defaultConn.Handshake (isClient : Bool) (addr : Option SocksAddr)
    (src : List Nat) : GoOutcome SocksAddr × List Nat × List Nat :=
  if isClient then
    match addr with
    | some target => (.ok target, target, src)
    | none => (.err .notSocksAddr, [], src)
  else
    let r := ReadSocksAddr src
    (r.1, [], r.2)

/-- Result of `defaultPacketConn.ReadPacket`: the returned byte count,
the target address, and the caller's buffer after the call. -/
structure PacketReadResult where
  n : Nat
  target : SocksAddr
  buf : List Nat
deriving DecidableEq

/-- Model of `defaultPacketConn.ReadPacket` (uot.go): the underlying
`ReadFrom` places the datagram (truncated to the buffer size) at the
front of the caller's buffer `p`, returning `n` received bytes; the
socks address is parsed from `p[:n]` and removed in place by
`copy(p, p[length:n])`.  A panic inside `ReadSocksAddr` propagates. -/
def defaultPacketConn.ReadPacket (p : List Nat) (datagram : List Nat) :
    GoOutcome PacketReadResult :=
  let n := min datagram.length p.length
  let p1 := datagram.take p.length ++ p.drop n
  match (ReadSocksAddr (p1.take n)).1 with
  | .err e => .err e
  | .panicked => .panicked
  | .ok target =>
    let length := target.length
    .ok ⟨n - length, target, (p1.drop length).take (n - length) ++ p1.drop (n - length)⟩

/-- A byte string that is a valid serialized StructuredAddress per the
spec's data model: IPv4 tag (1) with 4 host bytes and 2 port bytes,
IPv6 tag (4) with 16 host bytes and 2 port bytes, or domain tag (3)
with a length byte in 1..255, exactly that many host bytes, and 2 port
bytes; every byte is below 256. -/
def specValidSocksAddr (a : List Nat) : Bool :=
  a.all (fun x => x < 256) &&
  match a with
  | t :: l :: _ =>
    (t == atypIPv4 && a.length == 7) ||
    (t == atypIPv6 && a.length == 19) ||
    (t == atypDomainName && decide (1 ≤ l) && a.length == l + 4)
  | _ => false

/-! ### Helper lemmas about `readFull` -/

theorem readFull_of_le (src : List Nat) (k : Nat) (h : k ≤ src.length) :
    readFull src k = (src.take k, src.drop k, none) := by
  unfold readFull
  simp [h]

theorem readFull_fst (src : List Nat) (k : Nat) : (readFull src k).1 = src.take k := by
  unfold readFull
  split_ifs with h1 h2
  · rfl
  · simp [List.length_eq_zero.mp h2]
  · show src = src.take k
    exact (List.take_of_length_le (by omega)).symm

theorem readFull_rest (src : List Nat) (k : Nat) : (readFull src k).2.1 = src.drop k := by
  unfold readFull
  split_ifs with h1 h2
  · rfl
  · simp [List.length_eq_zero.mp h2]
  · exact (List.drop_eq_nil_of_le (by omega)).symm

theorem readFull_err_of_lt (src : List Nat) (k : Nat) (h : src.length < k) :
    (readFull src k).2.2 = some (if src.length = 0 then GoErr.eof else GoErr.unexpectedEOF) := by
  unfold readFull
  split_ifs with h1 h2
  · omega
  · simp [h2]
  · simp [h2]

theorem readFull_err_ne_none (src : List Nat) (k : Nat) (h : src.length < k) :
    (readFull src k).2.2 ≠ none := by
  rw [readFull_err_of_lt src k h]
  simp

/-! ### Complete parse of a valid serialized address -/
theorem readFull_exact (xs ys : List Nat) (k : Nat) (h : xs.length = k) :
    readFull (xs ++ ys) k = (xs, ys, none) := by
  subst h
  rw [readFull_of_le _ _ (by simp)]
  simp [List.take_left, List.drop_left]

theorem ReadSocksAddr_complete (a s : List Nat) (h : specValidSocksAddr a = true)
    (hfit : a.length ≤ maxAddrLen) :
    ReadSocksAddr (a ++ s) = (GoOutcome.ok a, s) := by
  match a with
  | [] => simp [specValidSocksAddr] at h
  | [t] => simp [specValidSocksAddr] at h
  | t :: l :: r =>
    simp only [specValidSocksAddr, Bool.and_eq_true, Bool.or_eq_true, beq_iff_eq,
      decide_eq_true_eq, List.all_eq_true, List.length_cons] at h
    obtain ⟨-, hcase⟩ := h
    rcases hcase with (⟨ht, hlen⟩ | ⟨ht, hlen⟩) | ⟨⟨ht, hl1⟩, hlen⟩
    · -- IPv4
      subst ht
      have hr : r.length = 5 := by omega
      have hsplit : l :: (r ++ s) = ([l] ++ r.take 3) ++ (r.drop 3 ++ s) := by
        rw [List.append_assoc, ← List.append_assoc (r.take 3), List.take_append_drop]
        rfl
      have h4 : ([l] ++ r.take 3 : List Nat).length = 4 := by
        simp [List.length_take]; omega
      have h2 : (r.drop 3 : List Nat).length = 2 := by simp; omega
      unfold ReadSocksAddr
      rw [List.cons_append, List.cons_append,
        readFull_of_le _ 1 (by simp only [List.length_cons]; omega)]
      dsimp only
      rw [show List.take 1 (atypIPv4 :: l :: (r ++ s)) = [atypIPv4] from rfl,
        show List.drop 1 (atypIPv4 :: l :: (r ++ s)) = l :: (r ++ s) from rfl]
      norm_num [atypIPv4, atypDomainName, atypIPv6, List.headD]
      rw [hsplit, readFull_exact _ _ _ h4]
      dsimp only
      rw [readFull_exact _ _ _ h2]
      dsimp only
      simp [List.append_assoc, List.take_append_drop]
    · -- IPv6
      subst ht
      have hr : r.length = 17 := by omega
      have hsplit : l :: (r ++ s) = ([l] ++ r.take 15) ++ (r.drop 15 ++ s) := by
        rw [List.append_assoc, ← List.append_assoc (r.take 15), List.take_append_drop]
        rfl
      have h16 : ([l] ++ r.take 15 : List Nat).length = 16 := by
        simp [List.length_take]; omega
      have h2 : (r.drop 15 : List Nat).length = 2 := by simp; omega
      unfold ReadSocksAddr
      rw [List.cons_append, List.cons_append,
        readFull_of_le _ 1 (by simp only [List.length_cons]; omega)]
      dsimp only
      rw [show List.take 1 (atypIPv6 :: l :: (r ++ s)) = [atypIPv6] from rfl,
        show List.drop 1 (atypIPv6 :: l :: (r ++ s)) = l :: (r ++ s) from rfl]
      norm_num [atypIPv4, atypDomainName, atypIPv6, List.headD]
      rw [hsplit, readFull_exact _ _ _ h16]
      dsimp only
      rw [readFull_exact _ _ _ h2]
      dsimp only
      simp [List.append_assoc, List.take_append_drop]
    · -- domain
      subst ht
      have hr : r.length = l + 2 := by omega
      have hl253 : l ≤ 253 := by
        simp only [List.length_cons, maxAddrLen] at hfit
        omega
      have hsplit : (r : List Nat) ++ s = r.take l ++ (r.drop l ++ s) := by
        rw [← List.append_assoc, List.take_append_drop]
      have hl : (r.take l : List Nat).length = l := by
        simp [List.length_take]; omega
      have h2 : (r.drop l : List Nat).length = 2 := by simp; omega
      unfold ReadSocksAddr
      rw [List.cons_append, List.cons_append,
        readFull_of_le _ 1 (by simp only [List.length_cons]; omega)]
      dsimp only
      rw [show List.take 1 (atypDomainName :: l :: (r ++ s)) = [atypDomainName] from rfl,
        show List.drop 1 (atypDomainName :: l :: (r ++ s)) = l :: (r ++ s) from rfl]
      norm_num [atypIPv4, atypDomainName, atypIPv6, List.headD]
      rw [show (l :: (r ++ s) : List Nat) = [l] ++ (r ++ s) from rfl,
        readFull_exact [l] (r ++ s) 1 rfl]
      dsimp only
      rw [hsplit, readFull_exact _ _ _ hl]
      dsimp only
      rw [if_neg (by simp only [maxAddrLen]; omega)]
      rw [readFull_exact _ _ _ h2]
      dsimp only
      simp [List.append_assoc, List.take_append_drop]

/-! ### Claim theorems -/

/-- C1: the claim is refuted by the code: on a stream that ends inside
the final 2-byte port field, `ReadSocksAddr` does not return a
truncation error; the error of the final `io.ReadFull` for the port is
discarded (socks.go line 75) and the truncated address is returned with
a nil error.  Here the 7-byte IPv4 address is cut one byte short. -/
theorem ReadSocksAddr_truncated_port_returns_ok :
    ReadSocksAddr [1, 10, 0, 0, 1, 0] = (GoOutcome.ok [1, 10, 0, 0, 1, 0], []) := rfl

/-- Parsing inverts serialization for every valid StructuredAddress
whose serialized form fits the parser's `maxAddrLen`-byte buffer
(all IPv4 and IPv6 addresses, domain-name lengths up to 253). -/
theorem Parse_Serialize_roundtrip_of_fits (a : List Nat)
    (h : specValidSocksAddr a = true) (hfit : a.length ≤ maxAddrLen) :
    ReadSocksAddr a = (GoOutcome.ok a, []) := by
  have hc := ReadSocksAddr_complete a [] h hfit
  rwa [List.append_nil] at hc

/-- Instance of the fitting round trip at a concrete IPv4 address. -/
theorem Parse_Serialize_roundtrip_of_fits_witness :
    specValidSocksAddr [1, 10, 0, 0, 1, 0, 53] = true ∧
      ReadSocksAddr [1, 10, 0, 0, 1, 0, 53] = (GoOutcome.ok [1, 10, 0, 0, 1, 0, 53], []) :=
  ⟨by decide, Parse_Serialize_roundtrip_of_fits [1, 10, 0, 0, 1, 0, 53] (by decide) (by decide)⟩

set_option maxRecDepth 20000 in
/-- C4: the claim fails on the code for domain-name lengths 254 and
255.  The parse buffer is `maxAddrLen = 1+1+255 = 257` bytes, 2 bytes
short of the longest serialized address, so after reading a 254-byte
host the port read slices `buf[256:258]`, beyond the buffer: a Go
runtime panic, not a returned address.  Here a valid length-254 domain
address round-trips into a panic with the 2 port bytes unconsumed. -/
theorem ReadSocksAddr_long_domain_panics :
    specValidSocksAddr (3 :: 254 :: (List.replicate 254 97 ++ [0, 80])) = true ∧
      ReadSocksAddr (3 :: 254 :: (List.replicate 254 97 ++ [0, 80])) =
        (GoOutcome.panicked, [0, 80]) :=
  ⟨by decide, by decide⟩

/-- C5: for any first byte outside {1, 3, 4}, `ReadSocksAddr` fails with
the "error socks address" error having consumed exactly the one tag
byte: the remaining source is the input minus its first byte. -/
theorem ReadSocksAddr_invalid_atyp (t : Nat) (rest : List Nat)
    (h1 : t ≠ atypIPv4) (h3 : t ≠ atypDomainName) (h4 : t ≠ atypIPv6) :
    ReadSocksAddr (t :: rest) = (GoOutcome.err GoErr.invalidAtyp, rest) := by
  unfold ReadSocksAddr
  rw [readFull_of_le _ 1 (by simp only [List.length_cons]; omega)]
  dsimp only
  rw [show List.take 1 (t :: rest) = [t] from rfl,
    show List.drop 1 (t :: rest) = rest from rfl]
  simp [List.headD, h1, h3, h4]

/-- C5 witness: tag byte 2. -/
theorem ReadSocksAddr_invalid_atyp_witness :
    ReadSocksAddr [2, 9] = (GoOutcome.err GoErr.invalidAtyp, [9]) :=
  ReadSocksAddr_invalid_atyp 2 [9] (by decide) (by decide) (by decide)

/-- C6: a payload longer than MaxPacketSize - 2 = 65533 bytes makes
`defaultConn.Write` fail with the "over max packet size" error.  In the
model a successful write returns the bytes written to the transport;
the error branch returns none, mirroring that the size check precedes
both `Conn.Write` calls, so nothing at all is written. -/
theorem Write_packet_too_large (b : List Nat) (h : MaxPacketSize - 2 < b.length) :
    defaultConn.Write b = Except.error GoErr.tooLarge := by
  unfold defaultConn.Write
  rw [if_pos h]

/-- C6 witness: payload length 65534. -/
theorem Write_packet_too_large_witness :
    defaultConn.Write (List.replicate 65534 0) = Except.error GoErr.tooLarge :=
  Write_packet_too_large _ (by simp only [MaxPacketSize, List.length_replicate]; omega)

/-- C10: with a destination buffer of length 0 or 1, `defaultConn.Read`
fails with io.ErrShortBuffer before touching the transport: the stream
is returned unconsumed and the buffer unchanged, whatever the incoming
record holds, because the 2-byte length prefix is staged in the
caller's buffer first. -/
theorem Read_buffer_lt_two (src buf : List Nat) (h : buf.length < 2) :
    defaultConn.Read src buf = ⟨0, buf, some GoErr.shortBuffer, src⟩ := by
  unfold defaultConn.Read
  rw [if_pos h]

/-- C10 witness: a 1-byte buffer and an incoming record whose payload
(length 1) would fit it. -/
theorem Read_buffer_lt_two_witness :
    defaultConn.Read [0, 1, 99] [7] = ⟨0, [7], some GoErr.shortBuffer, [0, 1, 99]⟩ :=
  Read_buffer_lt_two [0, 1, 99] [7] (by decide)

/-- C8: client-side Handshake with target {IPv4, 10.0.0.1, 53} writes
exactly the bytes 01 0A 00 00 01 00 35 to the transport and returns
that address; server-side Handshake reading exactly those bytes from
the transport returns the same address. -/
theorem Handshake_ipv4_example :
    defaultConn.Handshake true (some [1, 10, 0, 0, 1, 0, 53]) [] =
        (GoOutcome.ok [1, 10, 0, 0, 1, 0, 53], [1, 10, 0, 0, 1, 0, 53], []) ∧
      defaultConn.Handshake false none [1, 10, 0, 0, 1, 0, 53] =
        (GoOutcome.ok [1, 10, 0, 0, 1, 0, 53], [], []) :=
  ⟨rfl, rfl⟩

/-- C2 counterexample: at payload size 0 the claim fails.  The write
succeeds and puts the record 00 00 on the stream, but reading it back
with a destination buffer of exactly the payload size (0 bytes) fails
with io.ErrShortBuffer instead of succeeding. -/
theorem framing_roundtrip_counterexample :
    defaultConn.Write ([] : List Nat) = Except.ok [0, 0] ∧
      (defaultConn.Read [0, 0] []).err = some GoErr.shortBuffer :=
  ⟨rfl, rfl⟩

/-- C2 amended: for every payload accepted by `defaultConn.Write`
(length at most 65533, so in particular sizes 0, 1 and 65533), writing
it and then reading the produced bytes with a destination buffer of
size max 2 (payload size) succeeds, returns the original length,
leaves the original bytes at the front of the buffer, and consumes
exactly the record from the stream. -/
theorem framing_roundtrip (b buf rest w : List Nat)
    (hbuf : buf.length = max 2 b.length)
    (hw : defaultConn.Write b = Except.ok w) :
    (defaultConn.Read (w ++ rest) buf).err = none ∧
      (defaultConn.Read (w ++ rest) buf).n = b.length ∧
      ((defaultConn.Read (w ++ rest) buf).buf).take b.length = b ∧
      (defaultConn.Read (w ++ rest) buf).rest = rest := by
  unfold defaultConn.Write at hw
  by_cases hlen : MaxPacketSize - 2 < b.length
  · rw [if_pos hlen] at hw
    exact absurd hw (by simp)
  · rw [if_neg hlen] at hw
    have hwv : w = [b.length / 256 % 256, b.length % 256] ++ b := by
      injection hw with hw1
      exact hw1.symm
    subst hwv
    have hm : b.length ≤ 65533 := by
      simpa [MaxPacketSize] using hlen
    unfold defaultConn.Read
    rw [if_neg (by omega)]
    rw [show ([b.length / 256 % 256, b.length % 256] ++ b) ++ rest =
      b.length / 256 % 256 :: b.length % 256 :: (b ++ rest) from by simp]
    rw [readFull_of_le _ 2 (by simp only [List.length_cons]; omega)]
    dsimp only
    rw [show List.take 2 (b.length / 256 % 256 :: b.length % 256 :: (b ++ rest)) =
      [b.length / 256 % 256, b.length % 256] from rfl,
      show List.drop 2 (b.length / 256 % 256 :: b.length % 256 :: (b ++ rest)) =
      b ++ rest from rfl]
    dsimp only [List.cons_append, List.nil_append, List.headD, List.getD, List.get?, Option.getD]
    have hn : 256 * (b.length / 256 % 256) + b.length % 256 = b.length := by omega
    rw [hn, if_neg (by omega), readFull_exact b rest b.length rfl]
    dsimp only
    exact ⟨rfl, rfl, List.take_left b _, rfl⟩

/-- C2 witness: payload [7] (size 1), buffer of size max 2 1 = 2. -/
theorem framing_roundtrip_witness :
    (defaultConn.Read ([0, 1, 7] ++ []) [0, 0]).err = none ∧
      (defaultConn.Read ([0, 1, 7] ++ []) [0, 0]).n = ([7] : List Nat).length ∧
      ((defaultConn.Read ([0, 1, 7] ++ []) [0, 0]).buf).take ([7] : List Nat).length = [7] ∧
      (defaultConn.Read ([0, 1, 7] ++ []) [0, 0]).rest = [] :=
  framing_roundtrip [7] [0, 0] [] [0, 1, 7] (by decide) rfl

/-- C7: when the incoming record's 2-byte big-endian length prefix
decodes to n and the caller's buffer is shorter than n,
`defaultConn.Read` fails with io.ErrShortBuffer, which is a different
error value from the end-of-stream error io.EOF. -/
theorem Read_short_buffer (l1 l2 : Nat) (rest buf : List Nat)
    (h : buf.length < 256 * l1 + l2) :
    (defaultConn.Read (l1 :: l2 :: rest) buf).err = some GoErr.shortBuffer ∧
      GoErr.shortBuffer ≠ GoErr.eof := by
  refine ⟨?_, by decide⟩
  unfold defaultConn.Read
  by_cases h2 : buf.length < 2
  · rw [if_pos h2]
  · rw [if_neg h2, readFull_of_le _ 2 (by simp only [List.length_cons]; omega)]
    dsimp only
    rw [show List.take 2 (l1 :: l2 :: rest) = [l1, l2] from rfl,
      show List.drop 2 (l1 :: l2 :: rest) = rest from rfl]
    dsimp only [List.cons_append, List.nil_append, List.headD, List.getD, List.get?, Option.getD]
    rw [if_pos h]

/-- C7 witness: record length prefix 01 00 (n = 256), 2-byte buffer. -/
theorem Read_short_buffer_witness :
    (defaultConn.Read (1 :: 0 :: []) [0, 0]).err = some GoErr.shortBuffer ∧
      GoErr.shortBuffer ≠ GoErr.eof :=
  Read_short_buffer 1 0 [] [0, 0] (by decide)

/-- Receiving a datagram that is a valid serialized address (fitting
the parser's buffer) followed by payload bytes, all fitting the
caller's buffer: ReadPacket returns the decoded address as target,
moves the payload bytes to the front of the caller's buffer, and
returns the payload length as n. -/
theorem ReadPacket_strips_addr_of_fits (a payload buf : List Nat)
    (ha : specValidSocksAddr a = true) (haf : a.length ≤ maxAddrLen)
    (hfit : (a ++ payload).length ≤ buf.length) :
    defaultPacketConn.ReadPacket buf (a ++ payload) =
      GoOutcome.ok ⟨payload.length, a,
        payload ++ (a ++ (payload ++ buf.drop (a ++ payload).length)).drop payload.length⟩ := by
  unfold defaultPacketConn.ReadPacket
  rw [Nat.min_eq_left hfit, List.take_of_length_le hfit]
  dsimp only
  rw [List.take_left, ReadSocksAddr_complete a payload ha haf]
  dsimp only
  have hk : (a ++ payload).length - a.length = payload.length := by
    simp [List.length_append]
  rw [hk, List.append_assoc, List.drop_left, List.take_left]

/-- Instance of the fitting case: datagram 03 03 "foo" 00 50 ++ "hi" in
a 9-byte buffer yields target = domain "foo" port 80, payload "hi" at
the buffer front, and n = 2. -/
theorem ReadPacket_strips_addr_of_fits_witness :
    defaultPacketConn.ReadPacket [0, 0, 0, 0, 0, 0, 0, 0, 0]
        ([3, 3, 102, 111, 111, 0, 80] ++ [104, 105]) =
      GoOutcome.ok ⟨2, [3, 3, 102, 111, 111, 0, 80], [104, 105, 102, 111, 111, 0, 80, 104, 105]⟩ := by
  have h := ReadPacket_strips_addr_of_fits [3, 3, 102, 111, 111, 0, 80] [104, 105]
    [0, 0, 0, 0, 0, 0, 0, 0, 0] (by decide) (by decide) (by decide)
  rw [h]
  rfl

set_option maxRecDepth 40000 in
/-- C9: the claim fails on the code for datagrams whose valid address
prefix is a domain name of length 254 or 255: `ReadSocksAddr` panics on
the port slice beyond its 257-byte buffer, so `ReadPacket` panics
instead of returning the target and the shifted payload.  Here a
datagram with a valid length-254 domain prefix and payload "hi", in a
buffer large enough for all of it, panics. -/
theorem ReadPacket_long_domain_panics :
    specValidSocksAddr (3 :: 254 :: (List.replicate 254 97 ++ [0, 80])) = true ∧
      defaultPacketConn.ReadPacket (List.replicate 260 0)
        ((3 :: 254 :: (List.replicate 254 97 ++ [0, 80])) ++ [104, 105]) =
        GoOutcome.panicked :=
  ⟨by decide, by decide⟩

/-- C3 counterexample: ReadSocksAddr validates neither the domain length
byte nor the completeness of the port, so on the 2-byte source 03 00 it
successfully returns the address [3, 0]: its total length 2 is below
the claimed lower bound 7, and its domain length byte is 0, outside the
claimed range 1..255. -/
theorem ReadSocksAddr_invariant_counterexample :
    (ReadSocksAddr [3, 0]).1 = GoOutcome.ok [3, 0] ∧
      ¬ (7 ≤ ([3, 0] : List Nat).length) ∧ ¬ (1 ≤ ([3, 0] : List Nat).getD 1 0) :=
  ⟨rfl, by decide, by decide⟩

/-- C3 amended: every address successfully returned by `ReadSocksAddr`
from a byte source (all values below 256) has a total length between 2
and 262; when it is a domain address (tag 3) its length byte is at most
255 and equals the exact byte length of the host field that follows it,
the trailing port field holding at most 2 bytes. -/
theorem ReadSocksAddr_ok_invariant (src a rest : List Nat)
    (hb : ∀ x ∈ src, x < 256)
    (h : ReadSocksAddr src = (GoOutcome.ok a, rest)) :
    2 ≤ a.length ∧ a.length ≤ 262 ∧
      ∀ l r, a = atypDomainName :: l :: r →
        l ≤ 255 ∧ ∃ host port, r = host ++ port ∧ host.length = l ∧ port.length ≤ 2 := by
  rcases src with _ | ⟨t, r0⟩
  · exact absurd h (by simp [ReadSocksAddr, readFull])
  · unfold ReadSocksAddr at h
    rw [readFull_of_le _ 1 (by simp only [List.length_cons]; omega)] at h
    dsimp only at h
    rw [show List.take 1 (t :: r0) = [t] from rfl,
      show List.drop 1 (t :: r0) = r0 from rfl] at h
    dsimp only [List.headD] at h
    by_cases ht3 : t = atypDomainName
    · subst ht3
      rw [if_pos rfl] at h
      rcases r0 with _ | ⟨l, r1⟩
      · rw [readFull_err_of_lt _ _ (by simp)] at h
        dsimp only at h
        exact absurd h (by simp)
      · rw [readFull_of_le _ 1 (by simp only [List.length_cons]; omega)] at h
        dsimp only at h
        rw [show List.take 1 (l :: r1) = [l] from rfl,
          show List.drop 1 (l :: r1) = r1 from rfl] at h
        dsimp only [List.headD] at h
        by_cases hl : l ≤ r1.length
        · rw [readFull_of_le _ l hl] at h
          dsimp only at h
          by_cases hg : maxAddrLen < 2 + l + 2
          · rw [if_pos hg] at h
            exact absurd h (by simp)
          rw [if_neg hg] at h
          rw [readFull_fst, readFull_rest] at h
          have ha : a = atypDomainName :: l :: (r1.take l ++ (r1.drop l).take 2) := by
            have hfst := congrArg Prod.fst h
            simpa using hfst.symm
          subst ha
          have hl255 : l < 256 := hb l (by simp)
          have hlt : (r1.take l).length = l := by simp [List.length_take]; omega
          have hp2 : ((r1.drop l).take 2).length ≤ 2 := by
            simp [List.length_take]
          refine ⟨by simp, ?_, ?_⟩
          · simp only [List.length_cons, List.length_append, hlt]
            omega
          · intro l2 r2 heq
            injection heq with hh htl
            injection htl with hh2 hh3
            subst hh2
            exact ⟨by omega, r1.take l, (r1.drop l).take 2, hh3.symm, hlt, hp2⟩
        · rw [readFull_err_of_lt _ _ (by omega)] at h
          dsimp only at h
          exact absurd h (by simp)
    · rw [if_neg ht3] at h
      by_cases ht1 : t = atypIPv4
      · subst ht1
        rw [if_pos rfl] at h
        by_cases h4 : 4 ≤ r0.length
        · rw [readFull_of_le _ 4 h4] at h
          dsimp only at h
          rw [readFull_fst, readFull_rest] at h
          have ha : a = atypIPv4 :: (r0.take 4 ++ (r0.drop 4).take 2) := by
            have hfst := congrArg Prod.fst h
            simpa using hfst.symm
          subst ha
          have h4t : (r0.take 4).length = 4 := by simp [List.length_take]; omega
          have hp2 : ((r0.drop 4).take 2).length ≤ 2 := by simp [List.length_take]
          refine ⟨by simp only [List.length_cons, List.length_append, h4t]; omega, ?_, ?_⟩
          · simp only [List.length_cons, List.length_append, h4t]
            omega
          · intro l2 r2 heq
            injection heq with hh htl
            exact absurd hh (by decide)
        · rw [readFull_err_of_lt _ _ (by omega)] at h
          dsimp only at h
          exact absurd h (by simp)
      · rw [if_neg ht1] at h
        by_cases ht6 : t = atypIPv6
        · subst ht6
          rw [if_pos rfl] at h
          by_cases h16 : 16 ≤ r0.length
          · rw [readFull_of_le _ 16 h16] at h
            dsimp only at h
            rw [readFull_fst, readFull_rest] at h
            have ha : a = atypIPv6 :: (r0.take 16 ++ (r0.drop 16).take 2) := by
              have hfst := congrArg Prod.fst h
              simpa using hfst.symm
            subst ha
            have h16t : (r0.take 16).length = 16 := by simp [List.length_take]; omega
            have hp2 : ((r0.drop 16).take 2).length ≤ 2 := by simp [List.length_take]
            refine ⟨by simp only [List.length_cons, List.length_append, h16t]; omega, ?_, ?_⟩
            · simp only [List.length_cons, List.length_append, h16t]
              omega
            · intro l2 r2 heq
              injection heq with hh htl
              exact absurd hh (by decide)
          · rw [readFull_err_of_lt _ _ (by omega)] at h
            dsimp only at h
            exact absurd h (by simp)
        · rw [if_neg ht6] at h
          exact absurd h (by simp)

/-- C3 amended witness: a domain address with a 2-byte host. -/
theorem ReadSocksAddr_ok_invariant_witness :
    2 ≤ ([3, 2, 65, 66, 0, 80] : List Nat).length ∧
      ([3, 2, 65, 66, 0, 80] : List Nat).length ≤ 262 ∧
      ∀ l r, ([3, 2, 65, 66, 0, 80] : List Nat) = atypDomainName :: l :: r →
        l ≤ 255 ∧ ∃ host port, r = host ++ port ∧ host.length = l ∧ port.length ≤ 2 :=
  ReadSocksAddr_ok_invariant [3, 2, 65, 66, 0, 80] [3, 2, 65, 66, 0, 80] [] (by decide) rfl

end UoT
